import Mathlib

/-!
Verification of the call-site introspection engine in `sorcery/core.py`.

The Python module resolves a runtime invocation event back to the exact
call expression in the caller's source file.  We embed the relevant
fragment of the Python AST as an inductive type, translate each function
of `core.py` into a Lean function over that embedding, and prove the
specified properties.

Modelling conventions:
- Python AST nodes become the inductive `Node`; `isinstance` checks
  become constructor matches.  Fields irrelevant to the verified code
  (decorators, keywords of a call, contexts) are omitted.
- The `parent` back-references installed by `FileInfo.__init__` are
  modelled by carrying, for every node, the explicit list of its
  ancestors (innermost first, ending with the module root): `Located`.
- Raised exceptions become `Except Err`; each `Err` constructor records
  which Python exception it stands for.
- Python object identity used for caching and for value comparison is
  modelled by `Value := Nat` (object ids); dictionaries and sets become
  association lists and dedup by structural equality.
- `ast.walk` is breadth-first in Python; the embedding walks the tree in
  depth-first preorder.  Every use in `core.py` is order-insensitive
  (counts, membership and unique-element extraction only).
-/

namespace Sorcery

/-- Python runtime values, modelled by their object identity. -/
abbrev Value := Nat

/-- Exceptions raised by `core.py` and its helpers:
- `ambiguousCall count name` is the `ValueError` raised by
  `FileInfo._attr_call_at` ("Found N possible calls to name");
- `expectedOneValue count` is the `AssertionError` raised by
  `littleutils.only` when its argument does not have exactly one element;
- `noAssignment` is the `TypeError` from `nearest_assigned_names`;
- `cannotExtractName` is the `TypeError` from `node_name`;
- `nameError name` is the `NameError` from `_resolve_var`;
- `attributeError` is the `AttributeError` hit when a parent walk runs
  past the module root (`node.parent` missing). -/
inductive Err where
  | ambiguousCall (count : Nat) (name : String)
  | expectedOneValue (count : Nat)
  | noAssignment
  | cannotExtractName
  | nameError (name : String)
  | attributeError
  deriving DecidableEq, Repr

/-- The fragment of the Python AST used by `core.py`.  Statement nodes:
`module`, `assign`, `forS`, `exprS`, `passS`; expression nodes: `name`,
`attributeE`, `call`, `tupleE`, `listE`, `listComp`; `comprehension` is
the clause node of a comprehension (no line number of its own). -/
inductive Node where
  | module (body : List Node)
  | assign (targets : List Node) (value : Node) (lineno : Nat)
  | forS (target : Node) (iter : Node) (body : List Node) (orelse : List Node) (lineno : Nat)
  | exprS (value : Node) (lineno : Nat)
  | passS (lineno : Nat)
  | name (id : String) (lineno : Nat)
  | attributeE (value : Node) (attr : String) (lineno : Nat)
  | call (func : Node) (args : List Node) (lineno : Nat)
  | tupleE (elts : List Node) (lineno : Nat)
  | listE (elts : List Node) (lineno : Nat)
  | listComp (elt : Node) (generators : List Node) (lineno : Nat)
  | comprehension (target : Node) (iter : Node)

/-- `isinstance(node, ast.stmt)`: the statement constructors of `Node`
(the module root is `ast.Module`, not a statement). -/
def Node.isStmt : Node → Bool
  | .assign .. => true
  | .forS .. => true
  | .exprS .. => true
  | .passS .. => true
  | _ => false

/-- `isinstance(node, (ast.stmt, ast.comprehension))`: the stopping
condition of the parent walk in `nearest_assigned_names`. -/
def Node.isStmtOrComp : Node → Bool
  | .comprehension .. => true
  | n => n.isStmt

/-- `hasattr(node, 'lineno')`: every statement and expression carries a
line number; the module root and comprehension clauses do not. -/
def Node.lineno : Node → Option Nat
  | .module _ => none
  | .assign _ _ l => some l
  | .forS _ _ _ _ l => some l
  | .exprS _ l => some l
  | .passS l => some l
  | .name _ l => some l
  | .attributeE _ _ l => some l
  | .call _ _ l => some l
  | .tupleE _ l => some l
  | .listE _ l => some l
  | .listComp _ _ l => some l
  | .comprehension _ _ => none

/-- A node together with its chain of ancestors, innermost parent first.
This models the `parent` back-references that `FileInfo.__init__`
installs on every child node. -/
structure Located where
  node : Node
  ancestors : List Node

mutual

/-- Depth-first preorder traversal from a node, pairing every visited
node with its ancestor chain.  `walkL anc n` visits `n` (whose ancestors
are `anc`) and all its descendants. -/
def walkL (anc : List Node) : Node → List Located
  | .module body => ⟨.module body, anc⟩ :: walkLs (.module body :: anc) body
  | .assign ts v l => ⟨.assign ts v l, anc⟩ ::
      (walkLs (.assign ts v l :: anc) ts ++ walkL (.assign ts v l :: anc) v)
  | .forS t i b o l => ⟨.forS t i b o l, anc⟩ ::
      (walkL (.forS t i b o l :: anc) t ++ walkL (.forS t i b o l :: anc) i ++
       walkLs (.forS t i b o l :: anc) b ++ walkLs (.forS t i b o l :: anc) o)
  | .exprS v l => ⟨.exprS v l, anc⟩ :: walkL (.exprS v l :: anc) v
  | .passS l => [⟨.passS l, anc⟩]
  | .name id l => [⟨.name id l, anc⟩]
  | .attributeE v a l => ⟨.attributeE v a l, anc⟩ :: walkL (.attributeE v a l :: anc) v
  | .call f args l => ⟨.call f args l, anc⟩ ::
      (walkL (.call f args l :: anc) f ++ walkLs (.call f args l :: anc) args)
  | .tupleE es l => ⟨.tupleE es l, anc⟩ :: walkLs (.tupleE es l :: anc) es
  | .listE es l => ⟨.listE es l, anc⟩ :: walkLs (.listE es l :: anc) es
  | .listComp e gs l => ⟨.listComp e gs l, anc⟩ ::
      (walkL (.listComp e gs l :: anc) e ++ walkLs (.listComp e gs l :: anc) gs)
  | .comprehension t i => ⟨.comprehension t i, anc⟩ ::
      (walkL (.comprehension t i :: anc) t ++ walkL (.comprehension t i :: anc) i)

/-- Traversal of a list of sibling nodes sharing the ancestor chain `anc`. -/
def walkLs (anc : List Node) : List Node → List Located
  | [] => []
  | n :: rest => walkL anc n ++ walkLs anc rest

end

mutual

/-- Structural equality of nodes (stands in for the object identity used
by Python sets of AST nodes; distinct structurally equal nodes never
arise in the verified scenarios). -/
def nodeBeq : Node → Node → Bool
  | .module b1, .module b2 => nodesBeq b1 b2
  | .assign t1 v1 l1, .assign t2 v2 l2 => nodesBeq t1 t2 && nodeBeq v1 v2 && l1 == l2
  | .forS t1 i1 b1 o1 l1, .forS t2 i2 b2 o2 l2 =>
      nodeBeq t1 t2 && nodeBeq i1 i2 && nodesBeq b1 b2 && nodesBeq o1 o2 && l1 == l2
  | .exprS v1 l1, .exprS v2 l2 => nodeBeq v1 v2 && l1 == l2
  | .passS l1, .passS l2 => l1 == l2
  | .name i1 l1, .name i2 l2 => i1 == i2 && l1 == l2
  | .attributeE v1 a1 l1, .attributeE v2 a2 l2 => nodeBeq v1 v2 && a1 == a2 && l1 == l2
  | .call f1 a1 l1, .call f2 a2 l2 => nodeBeq f1 f2 && nodesBeq a1 a2 && l1 == l2
  | .tupleE e1 l1, .tupleE e2 l2 => nodesBeq e1 e2 && l1 == l2
  | .listE e1 l1, .listE e2 l2 => nodesBeq e1 e2 && l1 == l2
  | .listComp e1 g1 l1, .listComp e2 g2 l2 => nodeBeq e1 e2 && nodesBeq g1 g2 && l1 == l2
  | .comprehension t1 i1, .comprehension t2 i2 => nodeBeq t1 t2 && nodeBeq i1 i2
  | _, _ => false

/-- Structural equality of node lists. -/
def nodesBeq : List Node → List Node → Bool
  | [], [] => true
  | n1 :: r1, n2 :: r2 => nodeBeq n1 n2 && nodesBeq r1 r2
  | _, _ => false

end

/-- Structural equality of located nodes. -/
def locatedBeq (a b : Located) : Bool :=
  nodeBeq a.node b.node && nodesBeq a.ancestors b.ancestors

/-- Deduplication of a list of located nodes: models collecting them
into a Python `set` (only the cardinality of the set is ever consumed). -/
def dedupLocated : List Located → List Located
  | [] => []
  | x :: xs =>
      let d := dedupLocated xs
      if d.any (locatedBeq x) then d else x :: d

/-- `littleutils.only`: the unique element of a one-element collection;
raises `AssertionError` (`expectedOneValue`) otherwise. -/
def only {α : Type} : List α → Except Err α
  | [x] => .ok x
  | xs => .error (.expectedOneValue xs.length)

/-- A parsed source document: the `FileInfo` class.  Reading and parsing
the text (`file_to_string` / `ast.parse`) is external; the model starts
from the resulting tree. -/
structure FileInfo where
  path : String
  tree : Node

/-- The `nodes_by_line` index built by `FileInfo.__init__`: every walked
node carrying a `lineno` is indexed under that line. -/
def nodes_by_line (root : Node) (line : Nat) : List Located :=
  (walkL [] root).filter (fun l => l.node.lineno == some line)

/-- The filter of `FileInfo._attr_call_at`: a call expression whose
callee is an attribute access with trailing name `name`. -/
def is_attr_call_named (name : String) (l : Located) : Bool :=
  match l.node with
  | .call (.attributeE _ attr _) _ _ => attr == name
  | _ => false

/-- `FileInfo._attr_call_at(line, name)`: the unique attribute-style
call to `name` on `line`, `none` when the line has no such call, and
`ValueError` (`ambiguousCall`) listing the candidate count when it has
several. -/
def FileInfo._attr_call_at (fi : FileInfo) (line : Nat) (name : String) :
    Except Err (Option Located) :=
  match (nodes_by_line fi.tree line).filter (is_attr_call_named name) with
  | [] => .ok none
  | [c] => .ok (some c)
  | c1 :: c2 :: rest => .error (.ambiguousCall (c1 :: c2 :: rest).length name)

/-- `stmt_containing_node`: follow parent links until a statement node
is reached.  Walking past the module root is the missing-`parent`
`AttributeError`. -/
def stmt_containing_node (n : Node) (anc : List Node) : Except Err Located :=
  if n.isStmt then .ok ⟨n, anc⟩
  else
    match anc with
    | [] => .error .attributeError
    | p :: rest => stmt_containing_node p rest

/-- The filter of `FileInfo._calls_in_stmt_at_line`: a call expression
whose callee is a bare identifier. -/
def is_plain_call (n : Node) : Bool :=
  match n with
  | .call (.name _ _) _ _ => true
  | _ => false

/-- `FileInfo._calls_in_stmt_at_line(lineno)`: the single statement
containing all nodes indexed on `lineno` (via `only` over the set of
their enclosing statements), then every bare-identifier call inside it. -/
def FileInfo._calls_in_stmt_at_line (fi : FileInfo) (lineno : Nat) :
    Except Err (List Located) := do
  let stmts ← (nodes_by_line fi.tree lineno).mapM
      (fun l => stmt_containing_node l.node l.ancestors)
  let stmt ← only (dedupLocated stmts)
  pure ((walkL stmt.ancestors stmt.node).filter (fun l => is_plain_call l.node))

/-- One layer of name bindings of a frame (`f_locals`, `f_globals` or
`f_builtins`), as an association list. -/
abbrev NameSpace := List (String × Value)

/-- Dictionary lookup `ns[name]` on one binding layer. -/
def ns_get (ns : NameSpace) (name : String) : Option Value :=
  (ns.find? (fun e => e.1 == name)).map (fun e => e.2)

/-- A runtime caller frame: file, current line, code object identity and
the three binding layers searched by `_resolve_var`. -/
structure Frame where
  filename : String
  f_lineno : Nat
  f_code : Nat
  f_locals : NameSpace
  f_globals : NameSpace
  f_builtins : NameSpace

/-- The namespace loop of `_resolve_var`: first hit wins. -/
def lookup_chain (layers : List NameSpace) (name : String) : Option Value :=
  match layers with
  | [] => none
  | ns :: rest =>
      match ns_get ns name with
      | some v => some v
      | none => lookup_chain rest name

/-- `_resolve_var(frame, name)`: search `f_locals`, `f_globals`,
`f_builtins` in order; `NameError` when the name is bound in none. -/
def _resolve_var (frame : Frame) (name : String) : Except Err Value :=
  match lookup_chain [frame.f_locals, frame.f_globals, frame.f_builtins] name with
  | some v => .ok v
  | none => .error (.nameError name)

/-- The filter condition inside `FileInfo._plain_call_at`: does the
bare callee of this call currently resolve to `val`?  A resolution
failure (`NameError`) propagates. -/
def call_matches (frame : Frame) (val : Value) (c : Located) : Except Err Bool :=
  match c.node with
  | .call (.name id _) _ _ => do
      let v ← _resolve_var frame id
      pure (v == val)
  | _ => pure false

/-- The list comprehension inside `FileInfo._plain_call_at`: keep the
calls whose bare callee currently resolves to `val`. -/
def matching_calls (frame : Frame) (val : Value) : List Located → Except Err (List Located)
  | [] => .ok []
  | c :: rest => do
      let keep ← call_matches frame val c
      let tail ← matching_calls frame val rest
      if keep then pure (c :: tail) else pure tail

/-- `FileInfo._plain_call_at(frame, val)`: the unique bare-identifier
call in the current statement whose callee resolves to `val`. -/
def FileInfo._plain_call_at (fi : FileInfo) (frame : Frame) (val : Value) :
    Except Err Located := do
  let calls ← fi._calls_in_stmt_at_line frame.f_lineno
  let matching ← matching_calls frame val calls
  only matching

/-- `node_name`: the name string of an assignment target — the
identifier of a `Name` node, the trailing attribute of an `Attribute`
node; `TypeError` (`cannotExtractName`) for anything else. -/
def node_name (n : Node) : Except Err String :=
  match n with
  | .name id _ => .ok id
  | .attributeE _ attr _ => .ok attr
  | _ => .error .cannotExtractName

/-- The generator expression inside `node_names`: `node_name` applied
to each element in order, the first failure propagating. -/
def node_name_seq : List Node → Except Err (List String)
  | [] => .ok []
  | x :: rest => do
      let hd ← node_name x
      let tail ← node_name_seq rest
      pure (hd :: tail)

/-- `node_names`: one name per element of a tuple or list target
(single-level destructuring), a one-element sequence otherwise. -/
def node_names (n : Node) : Except Err (List String) :=
  match n with
  | .tupleE elts _ => node_name_seq elts
  | .listE elts _ => node_name_seq elts
  | _ => do pure [← node_name n]

/-- The loop body of `nearest_assigned_names` once the parent walk has
stopped: extract the left-hand target of an assignment (`only` over its
target list), of a for-loop header or of a comprehension clause;
`TypeError` (`noAssignment`) for any other node. -/
def assigned_names_of : Node → Except Err (List String × Node)
  | .assign targets v l => do
      let target ← only targets
      let names ← node_names target
      pure (names, .assign targets v l)
  | .forS target i b o l => do
      let names ← node_names target
      pure (names, .forS target i b o l)
  | .comprehension target i => do
      let names ← node_names target
      pure (names, .comprehension target i)
  | _ => .error .noAssignment

/-- `nearest_assigned_names(node)`: follow parent links until the first
statement or comprehension node, then extract that node's assignment
target names (paired with the node, as the Python function returns). -/
def nearest_assigned_names (n : Node) (anc : List Node) :
    Except Err (List String × Node) :=
  if n.isStmtOrComp then assigned_names_of n
  else
    match anc with
    | [] => .error .attributeError
    | p :: rest => nearest_assigned_names p rest

/-- The node at which the parent walk of `nearest_assigned_names` (and
of `stmt_containing_node`, restricted to statements) stops: the first
statement-or-comprehension ancestor, the node itself included. -/
def first_stmt_or_comp (n : Node) (anc : List Node) : Option Node :=
  if n.isStmtOrComp then some n
  else
    match anc with
    | [] => none
    | p :: rest => first_stmt_or_comp p rest

/-- An assignment-like construct in the sense of the specification:
simple assignment, for-loop header or comprehension clause. -/
def is_assignment_like (n : Node) : Bool :=
  match n with
  | .assign .. => true
  | .forS .. => true
  | .comprehension .. => true
  | _ => false

/-- `FrameInfo`: a runtime caller frame paired with the resolved call
expression. -/
structure FrameInfo where
  frame : Frame
  call : Located

/-- `FrameInfo.stmt`: the statement enclosing the resolved call. -/
def FrameInfo.stmt (fi : FrameInfo) : Except Err Located :=
  stmt_containing_node fi.call.node fi.call.ancestors

/-- `FrameInfo.assigned_names`: the assignment-target names derived from
the resolved call's position. -/
def FrameInfo.assigned_names (fi : FrameInfo) : Except Err (List String × Node) :=
  nearest_assigned_names fi.call.node fi.call.ancestors

/-- The process-wide document cache behind `file_info =
lru_cache()(FileInfo)`: the cached (path, instance) entries ordered
from most recently used to least recently used. -/
abbrev DocCache := List (String × FileInfo)

/-- The default `maxsize` of `functools.lru_cache` (no argument is
passed at `file_info = lru_cache()(FileInfo)`): at most 128 entries are
retained, the least recently used being evicted beyond that. -/
def LRU_MAXSIZE : Nat := 128

/-- Cache lookup by path. -/
def cache_get (c : DocCache) (path : String) : Option FileInfo :=
  (c.find? (fun e => e.1 == path)).map (fun e => e.2)

/-- The recency update `lru_cache` performs on a hit: the entry moves
to the most-recently-used position. -/
def cache_promote (c : DocCache) (path : String) (fi : FileInfo) : DocCache :=
  (path, fi) :: c.eraseP (fun e => e.1 == path)

/-- `file_info(path)` with the `lru_cache` state made explicit: on a
hit, the cached instance is returned and promoted to most recently
used; on a miss, the file is read and parsed (`parse`), the result is
stored at the most-recently-used position, and entries beyond the
`maxsize` bound of 128 are evicted (`c.take (LRU_MAXSIZE - 1)` keeps
the 127 most recent old entries next to the new one).  The boolean
records whether a read and parse happened on this invocation. -/
def file_info (parse : String → FileInfo) (c : DocCache) (path : String) :
    FileInfo × DocCache × Bool :=
  match cache_get c path with
  | some fi => (fi, cache_promote c path fi, false)
  | none => (parse path, (path, parse path) :: c.take (LRU_MAXSIZE - 1), true)

/-- `FileInfo.for_frame(frame)`: the document of the frame's file, via
the (already populated, here functional) document store. -/
def FileInfo.for_frame (files : String → FileInfo) (frame : Frame) : FileInfo :=
  files frame.filename

/-- A `Spell` (the Dispatcher): the registered name of the wrapped
function (`self.func.__name__`) and the object identity of the spell
itself, used for bare-name matching in `__call__`. -/
structure Spell where
  func_name : String
  value : Value

/-- The stack walk of `Spell.__get__`: starting from the immediate
caller, skip every frame whose code object is registered as excluded;
`none` models falling off the stack (`f_back` is `None`). -/
def skipExcluded (excluded : List Nat) (stack : List Frame) : Option Frame :=
  match stack with
  | [] => none
  | f :: rest => if f.f_code ∈ excluded then skipExcluded excluded rest else some f

/-- The result of `Spell.__get__`: either the spell itself (pass-through
marker, business logic not run) or the wrapper closure capturing a
`FrameInfo` (business logic still not run until the wrapper is called). -/
inductive GetResult where
  | passThrough
  | bound (fi : FrameInfo)

/-- `Spell.__get__`: select the caller frame by skipping excluded
frames, resolve an attribute-style call at its current line under the
spell's registered name; return the pass-through marker when the line
holds no such call.  `stack` lists the live frames from the immediate
caller outwards. -/
def Spell.get (sp : Spell) (excluded : List Nat) (files : String → FileInfo)
    (stack : List Frame) : Except Err GetResult :=
  match skipExcluded excluded stack with
  | none => .error .attributeError
  | some frame =>
      match (FileInfo.for_frame files frame)._attr_call_at frame.f_lineno sp.func_name with
      | .error e => .error e
      | .ok none => .ok .passThrough
      | .ok (some c) => .ok (.bound ⟨frame, c⟩)

/-- `Spell.__call__`: take the immediate caller frame (no exclusion
skipping appears in this entry mode) and resolve by bare-name identity
matching; the resulting `FrameInfo` is what business logic receives. -/
def Spell.call (sp : Spell) (files : String → FileInfo) (stack : List Frame) :
    Except Err FrameInfo :=
  match stack with
  | [] => .error .attributeError
  | frame :: _ => do
      let c ← (FileInfo.for_frame files frame)._plain_call_at frame sp.value
      pure ⟨frame, c⟩

/-- `no_spells(func)`: register a code object identity in the exclusion
set.  The registry supports no removal. -/
def no_spells (excluded : List Nat) (code : Nat) : List Nat :=
  excluded.insert code

/-- The bare-name matching condition, stated declaratively: `c` is a
call whose callee is a bare identifier currently resolving to `val` in
`frame`. -/
def resolves_to_value (frame : Frame) (val : Value) (c : Located) : Prop :=
  ∃ id nl args l, c.node = .call (.name id nl) args l ∧ _resolve_var frame id = .ok val

/-! ### Concrete inputs used by witnesses and counterexamples

`exFileAttr` is a three-line document exercising attribute-style
resolution:
line 1 `obj.foo` (reference, no call), line 2 `obj.foo()` (one call),
line 3 `(obj.foo(), alt.foo())` (two candidate calls). -/

/-- Line 1 of `exFileAttr`: `obj.foo` referenced without a call. -/
def exStmtRef : Node := .exprS (.attributeE (.name "obj" 1) "foo" 1) 1

/-- The call `obj.foo()` on line 2 of `exFileAttr`. -/
def exCallFooOne : Node := .call (.attributeE (.name "obj" 2) "foo" 2) [] 2

/-- Line 2 of `exFileAttr`: `obj.foo()`. -/
def exStmtOne : Node := .exprS exCallFooOne 2

/-- Line 3 of `exFileAttr`: `(obj.foo(), alt.foo())`. -/
def exStmtTwo : Node :=
  .exprS (.tupleE [.call (.attributeE (.name "obj" 3) "foo" 3) [] 3,
                   .call (.attributeE (.name "alt" 3) "foo" 3) [] 3] 3) 3

/-- The tree of `exFileAttr`. -/
def exTreeAttr : Node := .module [exStmtRef, exStmtOne, exStmtTwo]

/-- A document with zero, one and two attribute-style calls to `foo` on
its three lines. -/
def exFileAttr : FileInfo := ⟨"attr.py", exTreeAttr⟩

/-- The located unique call of line 2 of `exFileAttr`. -/
def exLocFooOne : Located := ⟨exCallFooOne, [exStmtOne, exTreeAttr]⟩

/-- The document store mapping every path to `exFileAttr`. -/
def exFilesAttr : String → FileInfo := fun _ => exFileAttr

/-- A caller frame sitting on line 1 of `exFileAttr`. -/
def exFrameRef : Frame := ⟨"attr.py", 1, 70, [], [], []⟩

/-- A caller frame sitting on line 2 of `exFileAttr`. -/
def exFrameGet : Frame := ⟨"attr.py", 2, 71, [], [], []⟩

/-- A spell registered under the name `foo`. -/
def exSpellFoo : Spell := ⟨"foo", 30⟩

/-! `exFilePlain` holds the single line `x = f(g())`; in the matching
caller frame `f` is bound to object 10 and `g` to object 20. -/

/-- The inner call `g()` of `exFilePlain`. -/
def exCallG : Node := .call (.name "g" 1) [] 1

/-- The outer call `f(g())` of `exFilePlain`. -/
def exCallF : Node := .call (.name "f" 1) [exCallG] 1

/-- The statement `x = f(g())` of `exFilePlain`. -/
def exStmtPlain : Node := .assign [.name "x" 1] exCallF 1

/-- The tree of `exFilePlain`. -/
def exTreePlain : Node := .module [exStmtPlain]

/-- A document whose single statement is `x = f(g())`. -/
def exFilePlain : FileInfo := ⟨"plain.py", exTreePlain⟩

/-- A caller frame on line 1 of `exFilePlain` binding `f` to 10 and
`g` to 20. -/
def exFramePlain : Frame := ⟨"plain.py", 1, 50, [("f", 10), ("g", 20)], [], []⟩

/-- The located call `f(g())` of `exFilePlain`. -/
def exLocF : Located := ⟨exCallF, [exStmtPlain, exTreePlain]⟩

/-- The located call `g()` of `exFilePlain`. -/
def exLocG : Located := ⟨exCallG, [exCallF, exStmtPlain, exTreePlain]⟩

/-- The bare-identifier calls of the statement of `exFilePlain`, in
traversal order. -/
def exCallsPlain : List Located := [exLocF, exLocG]

/-! `exFileDup` holds the single line `x = f(f())`: two distinct call
expressions whose bare callee resolves to the same object. -/

/-- The inner call `f()` of `exFileDup`. -/
def exCallFInner : Node := .call (.name "f" 1) [] 1

/-- The outer call `f(f())` of `exFileDup`. -/
def exCallFOuter : Node := .call (.name "f" 1) [exCallFInner] 1

/-- The statement `x = f(f())` of `exFileDup`. -/
def exStmtDup : Node := .assign [.name "x" 1] exCallFOuter 1

/-- The tree of `exFileDup`. -/
def exTreeDup : Node := .module [exStmtDup]

/-- A document whose single statement is `x = f(f())`. -/
def exFileDup : FileInfo := ⟨"dup.py", exTreeDup⟩

/-- A caller frame on line 1 of `exFileDup` binding `f` to 10. -/
def exFrameDup : Frame := ⟨"dup.py", 1, 51, [("f", 10)], [], []⟩

/-- The bare-identifier calls of the statement of `exFileDup`, in
traversal order. -/
def exCallsDup : List Located :=
  [⟨exCallFOuter, [exStmtDup, exTreeDup]⟩,
   ⟨exCallFInner, [exCallFOuter, exStmtDup, exTreeDup]⟩]

/-! Assignment-shape examples for the `assigned_names` derivation. -/

/-- The call `f()` appearing as right-hand side in the assignment-shape
examples. -/
def exCallRhs : Node := .call (.name "f" 1) [] 1

/-- The statement `x = f()`. -/
def exStmtAssignX : Node := .assign [.name "x" 1] exCallRhs 1

/-- The statement `a, b = f()`. -/
def exStmtAssignAB : Node :=
  .assign [.tupleE [.name "a" 1, .name "b" 1] 1] exCallRhs 1

/-- The statement `self.value = f()`. -/
def exStmtAssignAttr : Node :=
  .assign [.attributeE (.name "self" 1) "value" 1] exCallRhs 1

/-- The statement `for k in f(): pass`. -/
def exStmtFor : Node := .forS (.name "k" 1) exCallRhs [.passS 2] [] 1

/-- The statement `a = b = f()` (chained assignment, two targets). -/
def exStmtChain : Node := .assign [.name "a" 1, .name "b" 1] exCallRhs 1

/-- A caller frame whose bindings are irrelevant to the derivation. -/
def exFrameDummy : Frame := ⟨"ex.py", 1, 60, [], [], []⟩

/-- Frame context for the call in `x = f()`. -/
def exFIAssignX : FrameInfo :=
  ⟨exFrameDummy, ⟨exCallRhs, [exStmtAssignX, .module [exStmtAssignX]]⟩⟩

/-- Frame context for the call in `a, b = f()`. -/
def exFIAssignAB : FrameInfo :=
  ⟨exFrameDummy, ⟨exCallRhs, [exStmtAssignAB, .module [exStmtAssignAB]]⟩⟩

/-- Frame context for the call in `self.value = f()`. -/
def exFIAssignAttr : FrameInfo :=
  ⟨exFrameDummy, ⟨exCallRhs, [exStmtAssignAttr, .module [exStmtAssignAttr]]⟩⟩

/-- Frame context for the call in `for k in f(): pass`. -/
def exFIFor : FrameInfo :=
  ⟨exFrameDummy, ⟨exCallRhs, [exStmtFor, .module [exStmtFor]]⟩⟩

/-! A call whose nearest statement is not assignment-like although an
assignment-like ancestor exists above it:
`for k in xs:` / `    g()`. -/

/-- The call `g()` on line 2, inside the body of the for-loop. -/
def exCallInBody : Node := .call (.name "g" 2) [] 2

/-- The expression statement `g()` forming the loop body. -/
def exStmtBody : Node := .exprS exCallInBody 2

/-- The statement `for k in xs:` with body `g()`. -/
def exStmtForBody : Node := .forS (.name "k" 1) (.name "xs" 1) [exStmtBody] [] 1

/-- The ancestor chain of the call `g()` in the loop body. -/
def exAncInBody : List Node := [exStmtBody, exStmtForBody, .module [exStmtForBody]]

/-! Frames and documents for the stack-walk claims: `exFileW` holds
`x = f()`; the immediate caller frame has an excluded code object. -/

/-- The call `f()` of `exFileW`. -/
def exCallW : Node := .call (.name "f" 1) [] 1

/-- The statement `x = f()` of `exFileW`. -/
def exStmtW : Node := .assign [.name "x" 1] exCallW 1

/-- The tree of `exFileW`. -/
def exTreeW : Node := .module [exStmtW]

/-- A document whose single statement is `x = f()`. -/
def exFileW : FileInfo := ⟨"w.py", exTreeW⟩

/-- The document store mapping every path to `exFileW`. -/
def exFilesW : String → FileInfo := fun _ => exFileW

/-- The located call `f()` of `exFileW`. -/
def exLocW : Located := ⟨exCallW, [exStmtW, exTreeW]⟩

/-- The immediate caller frame: code object 100, `f` bound to 10. -/
def exFrameCaller : Frame := ⟨"w.py", 1, 100, [("f", 10)], [], []⟩

/-- The frame above the immediate caller: code object 200. -/
def exFrameOuter : Frame := ⟨"w.py", 1, 200, [], [], []⟩

/-- An exclusion registry containing the immediate caller's code. -/
def exExcluded : List Nat := [100]

/-- A spell registered under the name `f` with object identity 10. -/
def exSpellF : Spell := ⟨"f", 10⟩

/-- A caller frame with all three binding layers populated: `x` is
shadowed by the local layer, `y` only global, `len` only built-in. -/
def exFrameRes : Frame :=
  ⟨"res.py", 1, 80, [("x", 1)], [("x", 2), ("y", 3)], [("len", 4)]⟩

/-- A read-and-parse function for exercising the document cache: every
path yields an (empty) parsed document for that path. -/
def exParse : String → FileInfo := fun p => ⟨p, .module []⟩

/-- 128 pairwise distinct paths, all different from `"a.py"`: enough
loads to evict any earlier entry from the `lru_cache` bound. -/
def exPaths : List String := (List.range LRU_MAXSIZE).map (fun i => "p" ++ toString i)

/-- Load a sequence of paths in order, threading the cache. -/
def load_all (parse : String → FileInfo) (c : DocCache) (paths : List String) :
    DocCache :=
  paths.foldl (fun acc p => (file_info parse acc p).2.1) c

/-! ### Helper lemmas -/

/-- `only` fails, with the element count, whenever the list does not
have exactly one element. -/
lemma only_length_ne_one {α : Type} (xs : List α) (h : xs.length ≠ 1) :
    only xs = .error (.expectedOneValue xs.length) := by
  cases xs with
  | nil => rfl
  | cons x t =>
      cases t with
      | nil => exact absurd rfl h
      | cons y r => rfl

/-- Every failure of `only` is an `expectedOneValue` failure. -/
lemma only_error {α : Type} (xs : List α) (e : Err) (h : only xs = .error e) :
    ∃ k, e = .expectedOneValue k := by
  cases xs with
  | nil => exact ⟨0, (Except.error.inj h).symm⟩
  | cons x t =>
      cases t with
      | nil => exact Except.noConfusion h
      | cons y r => exact ⟨(x :: y :: r).length, (Except.error.inj h).symm⟩

/-- Every failure of `node_name` is a `cannotExtractName` failure. -/
lemma node_name_error (t : Node) (e : Err) (h : node_name t = .error e) :
    e = .cannotExtractName := by
  cases t <;> first
    | exact Except.noConfusion h
    | exact (Except.error.inj h).symm

/-- Every failure of `node_name_seq` is a `cannotExtractName` failure. -/
lemma node_name_seq_error (ts : List Node) (e : Err) :
    node_name_seq ts = .error e → e = .cannotExtractName := by
  induction ts with
  | nil => intro h; exact Except.noConfusion h
  | cons x rest ih =>
      intro h
      simp only [node_name_seq] at h
      cases hx : node_name x with
      | error ex =>
          rw [hx] at h
          simp only [Bind.bind, Except.bind, Except.error.injEq] at h
          rw [← h]
          exact node_name_error x ex hx
      | ok hd =>
          rw [hx] at h
          simp only [Bind.bind, Except.bind] at h
          cases hr : node_name_seq rest with
          | error er =>
              rw [hr] at h
              simp only [Except.error.injEq] at h
              rw [h] at hr
              exact ih hr
          | ok tail =>
              rw [hr] at h
              exact Except.noConfusion h

/-- Every failure of `node_names` is a `cannotExtractName` failure. -/
lemma node_names_error (t : Node) (e : Err) (h : node_names t = .error e) :
    e = .cannotExtractName := by
  cases t <;> first
    | exact node_name_seq_error _ e h
    | exact Except.noConfusion h
    | exact (Except.error.inj h).symm

/-- Target extraction at a simple assignment never reports the
no-assignment failure (it can only fail in `only` or in name
extraction). -/
lemma assigned_names_of_assign_ne (ts : List Node) (v : Node) (l : Nat) :
    assigned_names_of (.assign ts v l) ≠ .error .noAssignment := by
  intro h
  simp only [assigned_names_of] at h
  cases ho : only ts with
  | error e =>
      rw [ho] at h
      simp only [Bind.bind, Except.bind, Except.error.injEq] at h
      rcases only_error ts e ho with ⟨k, hk⟩
      rw [h] at hk
      exact Err.noConfusion hk
  | ok t =>
      rw [ho] at h
      simp only [Bind.bind, Except.bind] at h
      cases hn : node_names t with
      | error e2 =>
          rw [hn] at h
          simp only [Except.error.injEq] at h
          have h2 := node_names_error t e2 hn
          rw [h] at h2
          exact Err.noConfusion h2
      | ok names =>
          rw [hn] at h
          exact Except.noConfusion h

/-- Target extraction at a for-loop header never reports the
no-assignment failure. -/
lemma assigned_names_of_for_ne (t i : Node) (b o : List Node) (l : Nat) :
    assigned_names_of (.forS t i b o l) ≠ .error .noAssignment := by
  intro h
  simp only [assigned_names_of] at h
  cases hn : node_names t with
  | error e =>
      rw [hn] at h
      simp only [Bind.bind, Except.bind, Except.error.injEq] at h
      have h2 := node_names_error t e hn
      rw [h] at h2
      exact Err.noConfusion h2
  | ok names =>
      rw [hn] at h
      exact Except.noConfusion h

/-- Target extraction at a comprehension clause never reports the
no-assignment failure. -/
lemma assigned_names_of_comp_ne (t i : Node) :
    assigned_names_of (.comprehension t i) ≠ .error .noAssignment := by
  intro h
  simp only [assigned_names_of] at h
  cases hn : node_names t with
  | error e =>
      rw [hn] at h
      simp only [Bind.bind, Except.bind, Except.error.injEq] at h
      have h2 := node_names_error t e hn
      rw [h] at h2
      exact Err.noConfusion h2
  | ok names =>
      rw [hn] at h
      exact Except.noConfusion h

/-- The loop body fails with `noAssignment` exactly on the nodes that
are not assignment-like. -/
lemma assigned_names_of_noAssignment_iff (a : Node) :
    (assigned_names_of a = .error .noAssignment ↔ is_assignment_like a = false) := by
  cases a with
  | assign ts v l =>
      simp only [is_assignment_like, Bool.true_eq_false, iff_false]
      exact assigned_names_of_assign_ne ts v l
  | forS t i b o l =>
      simp only [is_assignment_like, Bool.true_eq_false, iff_false]
      exact assigned_names_of_for_ne t i b o l
  | comprehension t i =>
      simp only [is_assignment_like, Bool.true_eq_false, iff_false]
      exact assigned_names_of_comp_ne t i
  | module b => exact iff_of_true rfl rfl
  | exprS v l => exact iff_of_true rfl rfl
  | passS l => exact iff_of_true rfl rfl
  | name id l => exact iff_of_true rfl rfl
  | attributeE v a2 l => exact iff_of_true rfl rfl
  | call f args l => exact iff_of_true rfl rfl
  | tupleE es l => exact iff_of_true rfl rfl
  | listE es l => exact iff_of_true rfl rfl
  | listComp e2 gs l => exact iff_of_true rfl rfl

/-- The parent walk of `nearest_assigned_names` computes the loop body
at the node where `first_stmt_or_comp` stops. -/
lemma nearest_eq_at_stop : ∀ (anc : List Node) (n a : Node),
    first_stmt_or_comp n anc = some a →
    nearest_assigned_names n anc = assigned_names_of a := by
  intro anc
  induction anc with
  | nil =>
      intro n a h
      rw [first_stmt_or_comp] at h
      rw [nearest_assigned_names]
      by_cases hs : n.isStmtOrComp = true
      · simp only [hs, if_true, Option.some.injEq] at h
        simp only [hs, if_true]
        rw [h]
      · simp only [hs, if_false] at h
        exact Option.noConfusion h
  | cons p rest ih =>
      intro n a h
      rw [first_stmt_or_comp] at h
      rw [nearest_assigned_names]
      by_cases hs : n.isStmtOrComp = true
      · simp only [hs, if_true, Option.some.injEq] at h
        simp only [hs, if_true]
        rw [h]
      · simp only [hs, if_false] at h
        simp only [hs, if_false]
        exact ih p a h

/-- A successful bare-name filter test certifies that the candidate is
a bare-identifier call whose callee resolves to the expected value. -/
lemma call_matches_true (frame : Frame) (val : Value) (c : Located)
    (h : call_matches frame val c = .ok true) :
    resolves_to_value frame val c := by
  rcases c with ⟨cn, canc⟩
  cases cn <;> try exact Bool.noConfusion (Except.ok.inj h)
  rename_i f args l
  cases f <;> try exact Bool.noConfusion (Except.ok.inj h)
  rename_i id nl
  have h2 : (do
      let v ← _resolve_var frame id
      pure ((v == val) : Bool) : Except Err Bool) = .ok true := h
  cases hv : _resolve_var frame id with
  | error e =>
      rw [hv] at h2
      exact Except.noConfusion h2
  | ok v =>
      rw [hv] at h2
      simp only [Bind.bind, Except.bind, Pure.pure, Except.pure, Except.ok.injEq] at h2
      have hveq : v = val := eq_of_beq h2
      exact ⟨id, nl, args, l, rfl, by rw [hv, hveq]⟩

/-- Every element kept by the bare-name filter comes from the candidate
list and resolves to the expected value. -/
lemma matching_calls_mem (frame : Frame) (val : Value) :
    ∀ (calls m : List Located), matching_calls frame val calls = .ok m →
      ∀ c ∈ m, c ∈ calls ∧ resolves_to_value frame val c := by
  intro calls
  induction calls with
  | nil =>
      intro m h c hc
      have hm : m = [] := (Except.ok.inj h).symm
      rw [hm] at hc
      exact absurd hc (List.not_mem_nil c)
  | cons c0 rest ih =>
      intro m h c hc
      simp only [matching_calls] at h
      cases hk : call_matches frame val c0 with
      | error e =>
          rw [hk] at h
          exact Except.noConfusion h
      | ok keep =>
          rw [hk] at h
          simp only [Bind.bind, Except.bind] at h
          cases ht : matching_calls frame val rest with
          | error e =>
              rw [ht] at h
              exact Except.noConfusion h
          | ok tail =>
              rw [ht] at h
              have h3 : (if keep = true then (pure (c0 :: tail) : Except Err (List Located))
                  else pure tail) = .ok m := h
              cases keep with
              | true =>
                  rw [if_pos rfl] at h3
                  have hm := Except.ok.inj h3
                  rw [← hm] at hc
                  cases hc with
                  | head =>
                      exact ⟨List.mem_cons_self c0 rest,
                        call_matches_true frame val c0 hk⟩
                  | tail _ hct =>
                      have := ih tail ht c hct
                      exact ⟨List.mem_cons_of_mem c0 this.1, this.2⟩
              | false =>
                  rw [if_neg Bool.false_ne_true] at h3
                  have hm := Except.ok.inj h3
                  rw [← hm] at hc
                  have := ih tail ht c hc
                  exact ⟨List.mem_cons_of_mem c0 this.1, this.2⟩

/-- `_plain_call_at` reduces to `only` over the matching set once the
statement lookup and the filter have been carried out. -/
lemma plain_call_at_eq_only (fi : FileInfo) (frame : Frame) (val : Value)
    (calls m : List Located)
    (hcalls : fi._calls_in_stmt_at_line frame.f_lineno = .ok calls)
    (hm : matching_calls frame val calls = .ok m) :
    fi._plain_call_at frame val = only m := by
  rw [FileInfo._plain_call_at, hcalls]
  simp only [Bind.bind, Except.bind]
  rw [hm]

/-- A frame selected by the exclusion-skipping walk is never itself
excluded. -/
lemma skipExcluded_not_mem (excluded : List Nat) :
    ∀ (stack : List Frame) (f : Frame), skipExcluded excluded stack = some f →
      f.f_code ∉ excluded := by
  intro stack
  induction stack with
  | nil => intro f h; exact Option.noConfusion h
  | cons g rest ih =>
      intro f h
      rw [skipExcluded] at h
      by_cases hg : g.f_code ∈ excluded
      · simp only [hg, if_true] at h
        exact ih f h
      · simp only [hg, if_false, Option.some.injEq] at h
        rw [← h]
        exact hg

/-! ### Claims -/

/-- Claim C1: attribute-style resolution at a line and trailing name
returns the no-call sentinel when zero call expressions on the line have
an attribute-access callee with that name, returns the call expression
itself when exactly one does, and fails with the `ambiguousCall` error
carrying the exact candidate count and the name when two or more do —
it never implicitly picks one. -/
theorem attr_call_at_cases (fi : FileInfo) (line : Nat) (name : String) :
    ((nodes_by_line fi.tree line).filter (is_attr_call_named name) = [] →
        fi._attr_call_at line name = .ok none) ∧
    (∀ c, (nodes_by_line fi.tree line).filter (is_attr_call_named name) = [c] →
        fi._attr_call_at line name = .ok (some c)) ∧
    (∀ c1 c2 rest,
        (nodes_by_line fi.tree line).filter (is_attr_call_named name) =
          c1 :: c2 :: rest →
        fi._attr_call_at line name =
          .error (.ambiguousCall
            ((nodes_by_line fi.tree line).filter (is_attr_call_named name)).length
            name)) := by
  refine ⟨fun h => ?_, fun c h => ?_, fun c1 c2 rest h => ?_⟩ <;>
    rw [FileInfo._attr_call_at, h]

/-- Witness for `attr_call_at_cases` at the three lines of `exFileAttr`:
a bare reference, a single call, and two candidate calls to `foo`. -/
theorem attr_call_at_cases_witness :
    exFileAttr._attr_call_at 1 "foo" = .ok none ∧
    exFileAttr._attr_call_at 2 "foo" = .ok (some exLocFooOne) ∧
    exFileAttr._attr_call_at 3 "foo" = .error (.ambiguousCall 2 "foo") :=
  ⟨(attr_call_at_cases exFileAttr 1 "foo").1 rfl,
   (attr_call_at_cases exFileAttr 2 "foo").2.1 exLocFooOne rfl,
   (attr_call_at_cases exFileAttr 3 "foo").2.2 _ _ [] rfl⟩

/-- Claim C2: bare-name resolution returns, among the bare-identifier
calls of the single statement containing the triggering line's nodes,
the one whose identifier resolves through the environment lookup,
against the live caller frame, to the expected object — and exactly one
such call must match: any other matching-set size is a failure. -/
theorem plain_call_at_unique_match (fi : FileInfo) (frame : Frame) (val : Value)
    (calls : List Located)
    (hcalls : fi._calls_in_stmt_at_line frame.f_lineno = .ok calls) :
    (∀ c, matching_calls frame val calls = .ok [c] →
        fi._plain_call_at frame val = .ok c ∧ c ∈ calls ∧
          resolves_to_value frame val c) ∧
    (∀ m, matching_calls frame val calls = .ok m → m.length ≠ 1 →
        fi._plain_call_at frame val = .error (.expectedOneValue m.length)) := by
  constructor
  · intro c hm
    have hmem := matching_calls_mem frame val calls [c] hm c (by simp)
    refine ⟨?_, hmem.1, hmem.2⟩
    rw [plain_call_at_eq_only fi frame val calls [c] hcalls hm]
    rfl
  · intro m hm hlen
    rw [plain_call_at_eq_only fi frame val calls m hcalls hm]
    exact only_length_ne_one m hlen

/-- Witness for `plain_call_at_unique_match`: in `x = f(g())` with `f`
bound to the expected object 10 and `g` to 20, resolution returns the
call `f(g())`, which is among the statement's candidates. -/
theorem plain_call_at_unique_match_witness :
    exFilePlain._plain_call_at exFramePlain 10 = .ok exLocF ∧
    exLocF ∈ exCallsPlain :=
  ⟨((plain_call_at_unique_match exFilePlain exFramePlain 10 exCallsPlain rfl).1
      exLocF rfl).1,
   ((plain_call_at_unique_match exFilePlain exFramePlain 10 exCallsPlain rfl).1
      exLocF rfl).2.1⟩

/-- Claim C3 (counterexample): in `x = f(f())`, where two distinct call
expressions resolve to the same expected object, resolution fails with
the expected-one-value assertion of the `only` helper — which is not
the `ambiguousCall` error the claim prescribes (the code never silently
picks the first match, but it raises a different error). -/
theorem plain_call_double_match_counterexample :
    exFileDup._plain_call_at exFrameDup 10 = .error (.expectedOneValue 2) ∧
    Err.expectedOneValue 2 ≠ Err.ambiguousCall 2 "f" :=
  ⟨rfl, by decide⟩

/-- Claim C3 (amended): when two or more call expressions on the line
resolve to the same expected object, bare-name resolution fails with
the expected-one-value assertion of the `only` helper (an
`AssertionError`, not `AmbiguousCallError`), and never silently selects
the first match. -/
theorem plain_call_double_match_fails (fi : FileInfo) (frame : Frame) (val : Value)
    (calls m : List Located)
    (hcalls : fi._calls_in_stmt_at_line frame.f_lineno = .ok calls)
    (hm : matching_calls frame val calls = .ok m)
    (h2 : 2 ≤ m.length) :
    fi._plain_call_at frame val = .error (.expectedOneValue m.length) := by
  rw [plain_call_at_eq_only fi frame val calls m hcalls hm]
  exact only_length_ne_one m (by omega)

/-- Witness for `plain_call_double_match_fails` at `x = f(f())`. -/
theorem plain_call_double_match_fails_witness :
    exFileDup._plain_call_at exFrameDup 10 = .error (.expectedOneValue 2) :=
  plain_call_double_match_fails exFileDup exFrameDup 10 exCallsDup exCallsDup
    rfl rfl (by decide)

/-- Claim C4: the derived assignment-target names are, in order:
`x = f()` yields the single name x; `a, b = f()` yields a then b;
`self.value = f()` yields the trailing attribute name value only;
`for k in f(): ...` evaluated at the call yields k. -/
theorem assigned_names_examples :
    (FrameInfo.assigned_names exFIAssignX).map Prod.fst = .ok ["x"] ∧
    (FrameInfo.assigned_names exFIAssignAB).map Prod.fst = .ok ["a", "b"] ∧
    (FrameInfo.assigned_names exFIAssignAttr).map Prod.fst = .ok ["value"] ∧
    (FrameInfo.assigned_names exFIFor).map Prod.fst = .ok ["k"] :=
  ⟨rfl, rfl, rfl, rfl⟩

/-- Claim C5 (counterexample): for the call `g()` in the body of
`for k in xs:`, the derivation fails with `noAssignment` although an
assignment-like ancestor (the for-loop header) lies on the parent chain
before the document root — the walk stops at the nearest statement, not
at the nearest assignment-like ancestor. -/
theorem no_assignment_despite_for_ancestor :
    nearest_assigned_names exCallInBody exAncInBody = .error .noAssignment ∧
    exAncInBody.any is_assignment_like = true :=
  ⟨rfl, rfl⟩

/-- Claim C5 (amended): the derivation ascends parent links only to the
first statement or comprehension ancestor and fails with `noAssignment`
exactly when that ancestor is not an assignment-like construct — even
when an assignment-like ancestor exists further up the chain. -/
theorem no_assignment_iff_stop_not_assignment_like (n : Node) (anc : List Node)
    (a : Node) (h : first_stmt_or_comp n anc = some a) :
    (nearest_assigned_names n anc = .error .noAssignment ↔
      is_assignment_like a = false) := by
  rw [nearest_eq_at_stop anc n a h]
  exact assigned_names_of_noAssignment_iff a

/-- Witness for `no_assignment_iff_stop_not_assignment_like` at the call
in the body of a for-loop, whose nearest statement is an expression
statement. -/
theorem no_assignment_iff_stop_witness :
    nearest_assigned_names exCallInBody exAncInBody = .error .noAssignment :=
  (no_assignment_iff_stop_not_assignment_like exCallInBody exAncInBody
    exStmtBody rfl).mpr rfl

/-- Claim C6: when the line of the selected caller frame holds no
invoking attribute-style call of the spell's registered name, attribute
access returns the pass-through marker (the spell itself) — the wrapped
business logic is not executed. -/
theorem spell_get_pass_through (sp : Spell) (excluded : List Nat)
    (files : String → FileInfo) (stack : List Frame) (frame : Frame)
    (hsel : skipExcluded excluded stack = some frame)
    (hnone : (FileInfo.for_frame files frame)._attr_call_at frame.f_lineno
        sp.func_name = .ok none) :
    Spell.get sp excluded files stack = .ok .passThrough := by
  simp only [Spell.get, hsel, hnone]

/-- Witness for `spell_get_pass_through`: accessing `foo` on line 1 of
`exFileAttr`, which reads `obj.foo` without a call. -/
theorem spell_get_pass_through_witness :
    Spell.get exSpellFoo [] exFilesAttr [exFrameRef] = .ok .passThrough :=
  spell_get_pass_through exSpellFoo [] exFilesAttr [exFrameRef] exFrameRef rfl rfl

/-- Claim C7: environment resolution searches the local, then global,
then built-in layer, the first binding found winning, and fails with
`nameError` exactly when the name is absent from all three layers; the
lookup is a pure function of the frame and performs no side effects on
it. -/
theorem resolve_var_layered (frame : Frame) (name : String) :
    (∀ v, ns_get frame.f_locals name = some v →
        _resolve_var frame name = .ok v) ∧
    (ns_get frame.f_locals name = none → ∀ v,
        ns_get frame.f_globals name = some v →
        _resolve_var frame name = .ok v) ∧
    (ns_get frame.f_locals name = none → ns_get frame.f_globals name = none →
        ∀ v, ns_get frame.f_builtins name = some v →
        _resolve_var frame name = .ok v) ∧
    (_resolve_var frame name = .error (.nameError name) ↔
        ns_get frame.f_locals name = none ∧ ns_get frame.f_globals name = none ∧
          ns_get frame.f_builtins name = none) := by
  refine ⟨?_, ?_, ?_, ?_⟩
  · intro v hv
    simp [_resolve_var, lookup_chain, hv]
  · intro h0 v hv
    simp [_resolve_var, lookup_chain, h0, hv]
  · intro h0 h1 v hv
    simp [_resolve_var, lookup_chain, h0, h1, hv]
  · constructor
    · intro h
      cases hl : ns_get frame.f_locals name with
      | some v => simp [_resolve_var, lookup_chain, hl] at h
      | none =>
          cases hg : ns_get frame.f_globals name with
          | some v => simp [_resolve_var, lookup_chain, hl, hg] at h
          | none =>
              cases hb : ns_get frame.f_builtins name with
              | some v => simp [_resolve_var, lookup_chain, hl, hg, hb] at h
              | none => exact ⟨rfl, rfl, rfl⟩
    · rintro ⟨h0, h1, h2⟩
      simp [_resolve_var, lookup_chain, h0, h1, h2]

/-- Witness for `resolve_var_layered` on a frame with all three layers
populated: the local binding shadows the global one, the global layer is
reached when the local misses, the built-in layer last, and an unbound
name fails. -/
theorem resolve_var_layered_witness :
    _resolve_var exFrameRes "x" = .ok 1 ∧
    _resolve_var exFrameRes "y" = .ok 3 ∧
    _resolve_var exFrameRes "len" = .ok 4 ∧
    _resolve_var exFrameRes "zz" = .error (.nameError "zz") :=
  ⟨(resolve_var_layered exFrameRes "x").1 1 rfl,
   (resolve_var_layered exFrameRes "y").2.1 rfl 3 rfl,
   (resolve_var_layered exFrameRes "len").2.2.1 rfl rfl 4 rfl,
   (resolve_var_layered exFrameRes "zz").2.2.2.mpr ⟨rfl, rfl, rfl⟩⟩

set_option maxRecDepth 8000 in
/-- Claim C8 (counterexample): the first load of `"a.py"` reads the
file; after 128 distinct other paths are loaded, the entry for `"a.py"`
has been evicted from the `lru_cache` (default `maxsize` 128), so a
further load of the same path within the same process reads and parses
the file a second time, producing a second instance — the path does not
map to one instance for the process lifetime. -/
theorem file_info_eviction_counterexample :
    (file_info exParse [] "a.py").2.2 = true ∧
    cache_get (load_all exParse (file_info exParse [] "a.py").2.1 exPaths)
      "a.py" = none ∧
    (file_info exParse (load_all exParse (file_info exParse [] "a.py").2.1 exPaths)
      "a.py").2.2 = true :=
  ⟨rfl, rfl, rfl⟩

/-- Claim C8 (amended): loading a path that is still resident in the
cache returns the identical cached instance and performs no second file
read; in particular, loading the same path twice back to back reads and
parses at most once, the second load returning the identical instance
and leaving the cache unchanged.  (Residency is bounded: `lru_cache`
retains the 128 most recently used paths, so the guarantee holds while
fewer than 128 distinct paths intervene, not for the process lifetime.) -/
theorem file_info_cached_while_resident (parse : String → FileInfo)
    (c : DocCache) (path : String) :
    (∀ fi, cache_get c path = some fi →
        (file_info parse c path).1 = fi ∧ (file_info parse c path).2.2 = false) ∧
    ((file_info parse (file_info parse c path).2.1 path).1 =
        (file_info parse c path).1 ∧
      (file_info parse (file_info parse c path).2.1 path).2.1 =
        (file_info parse c path).2.1 ∧
      (file_info parse (file_info parse c path).2.1 path).2.2 = false) := by
  constructor
  · intro fi h
    rw [file_info, h]
    exact ⟨rfl, rfl⟩
  · cases h : cache_get c path with
    | some fi =>
        have h1 : file_info parse c path = (fi, cache_promote c path fi, false) := by
          rw [file_info, h]
        have hget : cache_get (cache_promote c path fi) path = some fi := by
          simp [cache_get, cache_promote]
        have h2 : file_info parse (cache_promote c path fi) path =
            (fi, cache_promote (cache_promote c path fi) path fi, false) := by
          rw [file_info, hget]
        rw [h1, h2]
        refine ⟨rfl, ?_, rfl⟩
        show cache_promote (cache_promote c path fi) path fi = cache_promote c path fi
        rw [cache_promote, cache_promote]
        rw [List.eraseP_cons_of_pos (by simp)]
    | none =>
        have h1 : file_info parse c path =
            (parse path, (path, parse path) :: c.take (LRU_MAXSIZE - 1), true) := by
          rw [file_info, h]
        have hget : cache_get ((path, parse path) :: c.take (LRU_MAXSIZE - 1)) path =
            some (parse path) := by
          simp [cache_get]
        have h2 : file_info parse ((path, parse path) :: c.take (LRU_MAXSIZE - 1)) path =
            (parse path,
             cache_promote ((path, parse path) :: c.take (LRU_MAXSIZE - 1)) path
               (parse path),
             false) := by
          rw [file_info, hget]
        rw [h1, h2]
        refine ⟨rfl, ?_, rfl⟩
        show cache_promote ((path, parse path) :: c.take (LRU_MAXSIZE - 1)) path
            (parse path) = (path, parse path) :: c.take (LRU_MAXSIZE - 1)
        rw [cache_promote]
        rw [List.eraseP_cons_of_pos (by simp)]

/-- Witness for `file_info_cached_while_resident`: a cache already
holding `"a.py"` serves it without a read, and a back-to-back reload of
a fresh path performs no second read. -/
theorem file_info_cached_while_resident_witness :
    (file_info exParse [("a.py", exParse "a.py")] "a.py").1 = exParse "a.py" ∧
    (file_info exParse [("a.py", exParse "a.py")] "a.py").2.2 = false ∧
    (file_info exParse (file_info exParse [] "b.py").2.1 "b.py").2.2 = false :=
  ⟨((file_info_cached_while_resident exParse [("a.py", exParse "a.py")] "a.py").1
      (exParse "a.py") rfl).1,
   ((file_info_cached_while_resident exParse [("a.py", exParse "a.py")] "a.py").1
      (exParse "a.py") rfl).2,
   (file_info_cached_while_resident exParse [] "b.py").2.2.2⟩

/-- Claim C9 (counterexample): with the immediate caller's code object
registered as excluded, direct invocation still resolves against that
very frame — the call entry mode performs no exclusion skipping, while
the attribute-access walk over the same stack selects the frame above. -/
theorem spell_call_no_skip_counterexample :
    Spell.call exSpellF exFilesW [exFrameCaller, exFrameOuter] =
      .ok ⟨exFrameCaller, exLocW⟩ ∧
    exFrameCaller.f_code ∈ exExcluded ∧
    skipExcluded exExcluded [exFrameCaller, exFrameOuter] = some exFrameOuter :=
  ⟨rfl, by decide, rfl⟩

/-- Claim C9 (amended): in attribute-access mode the stack walk skips
every excluded frame, so the attributed frame is never excluded; in
direct-invocation mode the immediate caller frame is used with no
skipping; the exclusion registry only grows under registration. -/
theorem spell_frame_attribution (sp : Spell) (excluded : List Nat)
    (files : String → FileInfo) (stack : List Frame) (code : Nat) :
    (∀ fi, Spell.get sp excluded files stack = .ok (.bound fi) →
        fi.frame.f_code ∉ excluded) ∧
    (∀ fi, Spell.call sp files stack = .ok fi → stack.head? = some fi.frame) ∧
    excluded ⊆ no_spells excluded code := by
  refine ⟨?_, ?_, List.subset_insert code excluded⟩
  · intro fi h
    rw [Spell.get] at h
    split at h
    · exact Except.noConfusion h
    · rename_i frame heq
      split at h
      · exact Except.noConfusion h
      · exact GetResult.noConfusion (Except.ok.inj h)
      · rename_i cnode hattr
        have hfi : fi = ⟨frame, cnode⟩ :=
          (GetResult.bound.inj (Except.ok.inj h)).symm
        rw [hfi]
        exact skipExcluded_not_mem excluded stack frame heq
  · intro fi h
    cases stack with
    | nil => exact Except.noConfusion h
    | cons frame rest =>
        simp only [Spell.call] at h
        cases hp : (FileInfo.for_frame files frame)._plain_call_at frame
            sp.value with
        | error e =>
            rw [hp] at h
            exact Except.noConfusion h
        | ok cnode =>
            rw [hp] at h
            have h2 : (Except.ok (⟨frame, cnode⟩ : FrameInfo) :
                Except Err FrameInfo) = .ok fi := h
            rw [← Except.ok.inj h2]
            rfl

/-- Witness for `spell_frame_attribution`: attribute access on line 2 of
`exFileAttr` binds a non-excluded frame; direct invocation on the
two-frame stack uses the immediate caller; registering code 300 keeps
the previous registry entries. -/
theorem spell_frame_attribution_witness :
    exFrameGet.f_code ∉ ([] : List Nat) ∧
    [exFrameCaller, exFrameOuter].head? = some exFrameCaller ∧
    exExcluded ⊆ no_spells exExcluded 300 :=
  ⟨(spell_frame_attribution exSpellFoo [] exFilesAttr [exFrameGet] 0).1
      ⟨exFrameGet, exLocFooOne⟩ rfl,
   (spell_frame_attribution exSpellF exExcluded exFilesW
      [exFrameCaller, exFrameOuter] 300).2.1 ⟨exFrameCaller, exLocW⟩ rfl,
   (spell_frame_attribution exSpellF exExcluded exFilesW
      [exFrameCaller, exFrameOuter] 300).2.2⟩

/-- Claim C10: when the construct enclosing the call is a simple
assignment with two or more targets (a chained assignment such as
`a = b = f()`), the derivation fails — with the expected-one-value
assertion over the target list — instead of returning any names. -/
theorem chained_assignment_rejected (n : Node) (anc : List Node)
    (targets : List Node) (v : Node) (l : Nat)
    (h : first_stmt_or_comp n anc = some (.assign targets v l))
    (h2 : 2 ≤ targets.length) :
    nearest_assigned_names n anc = .error (.expectedOneValue targets.length) := by
  rw [nearest_eq_at_stop anc n (.assign targets v l) h]
  simp only [assigned_names_of]
  rw [only_length_ne_one targets (by omega)]
  simp [Bind.bind, Except.bind]

/-- Witness for `chained_assignment_rejected` at `a = b = f()`. -/
theorem chained_assignment_rejected_witness :
    nearest_assigned_names exCallRhs [exStmtChain, .module [exStmtChain]] =
      .error (.expectedOneValue 2) :=
  chained_assignment_rejected exCallRhs [exStmtChain, .module [exStmtChain]]
    [.name "a" 1, .name "b" 1] exCallRhs 1 rfl (by decide)

end Sorcery
